import Mathlib

/-!
Shallow embedding of the per-stream core of the yamux multiplexer
(`stream.go`).  Machine integers (`uint32`) are modelled as `Nat` with
explicit reduction modulo `2^32` wherever the Go code can wrap.  Session
side effects (frame emission via `waitForSendErr`, `closeStream`,
`establishStream`) are modelled as explicit return values; the session's
send path is assumed to succeed (`waitForSendErr` returning `nil`), since
the properties under study do not concern transport failures.  Locking,
channels and blocking are concurrency mechanics outside the embedding;
a blocked call is represented by an explicit `block` outcome.
-/

namespace Yamux

/-- `2^32`, the modulus of Go's `uint32` arithmetic. -/
def U32 : Nat := 4294967296

/-- Go `uint32` subtraction `a - b` (wraps modulo `2^32`). -/
def sub32 (a b : Nat) : Nat := (a % U32 + (U32 - b % U32)) % U32

/-- Go `uint32` bitwise complement `^a`. -/
def compl32 (a : Nat) : Nat := U32 - 1 - a % U32

/-- Flag bits of the yamux frame header (`const.go`). -/
def flagSYN : Nat := 1

/-- ACK flag bit. -/
def flagACK : Nat := 2

/-- FIN flag bit. -/
def flagFIN : Nat := 4

/-- RST flag bit. -/
def flagRST : Nat := 8

/-- The stream states of `stream.go` (`streamInit` .. `streamReset`). -/
inductive StreamState where
  | Init
  | SYNSent
  | SYNReceived
  | Established
  | LocalClose
  | RemoteClose
  | Closed
  | Reset
deriving DecidableEq, Repr

/-- Errors the stream produces (`const.go` / `io`); `Timeout` stands for
both `timeoutError{}` and `ErrTimeout`, which are indistinguishable for
the properties studied here. -/
inductive GoErr where
  | EOF
  | Timeout
  | StreamClosed
  | ConnectionReset
  | RecvWindowExceeded
  | UnexpectedFlag
deriving DecidableEq, Repr

/-- Frame types relevant to the stream (`typeData`, `typeWindowUpdate`). -/
inductive FrameType where
  | data
  | windowUpdate
deriving DecidableEq, Repr

/-- An outbound frame as handed to `session.waitForSendErr`: the header
fields produced by `header.encode` plus the body bytes (empty for
window-update frames). -/
structure Frame where
  ftype : FrameType
  flags : Nat
  id : Nat
  length : Nat
  body : List Nat
deriving DecidableEq, Repr

/-- The pure state of a `Stream`.  `recvBuf` is `none` when the Go
`*bytes.Buffer` is `nil`; `readTimedOut`/`writeTimedOut` are the atomic
timed-out flags. -/
structure Stream where
  id : Nat
  state : StreamState
  recvWindow : Nat
  sendWindow : Nat
  recvBuf : Option (List Nat)
  readTimedOut : Bool
  writeTimedOut : Bool
deriving DecidableEq, Repr

/-- Contents of the receive buffer (empty when the buffer is `nil`). -/
def bufContents (s : Stream) : List Nat := s.recvBuf.getD []

/-- `s.recvBuf.Len()` with a `nil` buffer counting as length 0. -/
def bufLen (s : Stream) : Nat := (bufContents s).length

/-- `newStream`: fresh stream for `id` in the given state, both windows
at `initialStreamWindow`, no buffer, no deadline fired. -/
def newStream (id : Nat) (state : StreamState) (initialStreamWindow : Nat) : Stream :=
  ⟨id, state, initialStreamWindow, initialStreamWindow, none, false, false⟩

/-- `sendFlags`: pending SYN/ACK piggyback bits together with the state
transition they cause (`Init → SYNSent` attaching SYN,
`SYNReceived → Established` attaching ACK). -/
def sendFlags (s : Stream) : Nat × Stream :=
  match s.state with
  | .Init => (flagSYN, { s with state := .SYNSent })
  | .SYNReceived => (flagACK, { s with state := .Established })
  | _ => (0, s)

/-- Session side effects requested by flag processing: the deferred
`closeStream(id)` call and the `establishStream(id)` notification. -/
structure FlagEffects where
  closeStream : Bool
  establish : Bool
deriving DecidableEq, Repr

/-- Result of `processFlags` and of the inbound handlers built on it. -/
structure FlagsResult where
  err : Option GoErr
  stream : Stream
  eff : FlagEffects
deriving DecidableEq, Repr

/-- The RST tail of `processFlags`: if the RST bit is set, move to
`Reset` and request `closeStream`. -/
def applyRST (flags : Nat) (s : Stream) (closeReq establish : Bool) : FlagsResult :=
  if flags &&& flagRST = flagRST then
    ⟨none, { s with state := .Reset }, ⟨true, establish⟩⟩
  else
    ⟨none, s, ⟨closeReq, establish⟩⟩

/-- `processFlags`: ACK is handled first (state changes only from
`SYNSent`, but `establishStream` is notified whenever the bit is set),
then FIN (an unexpected FIN aborts with `ErrUnexpectedFlag` before RST
is examined), then RST. -/
def processFlags (s : Stream) (flags : Nat) : FlagsResult :=
  let est : Bool := decide (flags &&& flagACK = flagACK)
  let s1 : Stream :=
    if flags &&& flagACK = flagACK then
      (if s.state = .SYNSent then { s with state := .Established } else s)
    else s
  if flags &&& flagFIN = flagFIN then
    match s1.state with
    | .SYNSent => applyRST flags { s1 with state := .RemoteClose } false est
    | .SYNReceived => applyRST flags { s1 with state := .RemoteClose } false est
    | .Established => applyRST flags { s1 with state := .RemoteClose } false est
    | .LocalClose => applyRST flags { s1 with state := .Closed } true est
    | _ => ⟨some .UnexpectedFlag, s1, ⟨false, est⟩⟩
  else
    applyRST flags s1 false est

/-- `incrSendWindow`: flag processing, then `sendWindow += hdr.Length()`
in `uint32` arithmetic. -/
def incrSendWindow (s : Stream) (flags hdrLength : Nat) : FlagsResult :=
  let r := processFlags s flags
  match r.err with
  | some e => ⟨some e, r.stream, r.eff⟩
  | none =>
      ⟨none, { r.stream with sendWindow := (r.stream.sendWindow + hdrLength) % U32 }, r.eff⟩

/-- `readData`: flag processing, zero-length early return, receive-window
check (`length > recvWindow` fails with `ErrRecvWindowExceeded` leaving
buffer and window untouched), then append up to `length` bytes of the
frame body and decrement `recvWindow` by `length`. -/
def readData (s : Stream) (flags length : Nat) (body : List Nat) : FlagsResult :=
  let r := processFlags s flags
  match r.err with
  | some e => ⟨some e, r.stream, r.eff⟩
  | none =>
      if length = 0 then ⟨none, r.stream, r.eff⟩
      else if r.stream.recvWindow < length then
        ⟨some .RecvWindowExceeded, r.stream, r.eff⟩
      else
        ⟨none,
          { r.stream with
              recvBuf := some (bufContents r.stream ++ body.take length),
              recvWindow := r.stream.recvWindow - length },
          r.eff⟩

/-- `sendWindowUpdate`: `delta = (max − bufLen) − recvWindow` in `uint32`
arithmetic, flag piggyback via `sendFlags`, suppression when
`delta < max/2` and no flag is pending; on emission `recvWindow += delta`
and a window-update frame carrying `delta` is sent. -/
def sendWindowUpdate (maxWin : Nat) (s : Stream) : Stream × Option Frame :=
  let delta := sub32 (sub32 maxWin (bufLen s)) s.recvWindow
  let fs := sendFlags s
  if delta < maxWin / 2 ∧ fs.1 = 0 then
    (fs.2, none)
  else
    let s2 := { fs.2 with recvWindow := (fs.2.recvWindow + delta) % U32 }
    (s2, some ⟨.windowUpdate, fs.1, s2.id, delta, []⟩)

/-- Outcome of one pass of the `write` loop body. -/
inductive WriteStepResult where
  | err (e : GoErr)
  | block
  | sent (n : Nat) (f : Frame) (s' : Stream)
deriving DecidableEq, Repr

/-- One pass of `write` (the short-write step): timed-out check, state
check (`LocalClose`/`Closed` → `ErrStreamClosed`, `Reset` →
`ErrConnectionReset`), then, when the send window is nonzero, emit one
data frame of `min(window, len(b))` bytes and subtract that length from
`sendWindow` by adding the `uint32` two's complement `^uint32(max-1)`;
a zero window blocks. -/
def writeStep (s : Stream) (b : List Nat) : WriteStepResult :=
  if s.writeTimedOut then .err .Timeout
  else
    match s.state with
    | .LocalClose => .err .StreamClosed
    | .Closed => .err .StreamClosed
    | .Reset => .err .ConnectionReset
    | _ =>
        if s.sendWindow ≠ 0 then
          let fs := sendFlags s
          let mx := min s.sendWindow b.length
          let s' := { fs.2 with sendWindow := (fs.2.sendWindow + compl32 (sub32 mx 1)) % U32 }
          .sent mx ⟨.data, fs.1, s.id, mx, b.take mx⟩ s'
        else .block

/-- The `Write` loop `for total < len(b) { n, err := s.write(b[total:]) }`,
fuel-indexed; `none` means the loop did not finish within `fuel` steps
(or blocked on a zero window, which in Go waits for an external event). -/
def writeLoop (b : List Nat) : Nat → Stream → Nat → List Frame →
    Option (Nat × Option GoErr × Stream × List Frame)
  | fuel, s, total, acc =>
    if total < b.length then
      match fuel with
      | 0 => none
      | fuel + 1 =>
          match writeStep s (b.drop total) with
          | .err e => some (total, some e, s, acc)
          | .block => none
          | .sent n f s' => writeLoop b fuel s' (total + n) (acc ++ [f])
    else
      some (total, none, s, acc)

/-- `Write`: run the loop from `total = 0` with no frames emitted yet. -/
def WriteOp (fuel : Nat) (s : Stream) (b : List Nat) :
    Option (Nat × Option GoErr × Stream × List Frame) :=
  writeLoop b fuel s 0 []

/-- Outcome of one pass of the `Read` loop (up to the first return or
suspension). -/
inductive ReadResult where
  | timeout
  | eof
  | reset
  | block
  | bytes (data : List Nat) (s' : Stream) (frames : List Frame)
deriving DecidableEq, Repr

/-- The delivery tail of `Read`: with an empty buffer the call blocks,
otherwise `recvBuf.Read(b)` hands over `min(len(b), buffered)` bytes and
`sendWindowUpdate` runs. -/
def readDeliver (maxWin : Nat) (s : Stream) (bLen : Nat) : ReadResult :=
  if bufLen s = 0 then .block
  else
    let n := min bLen (bufLen s)
    let s1 := { s with recvBuf := some ((bufContents s).drop n) }
    let r := sendWindowUpdate maxWin s1
    .bytes ((bufContents s).take n) r.1 r.2.toList

/-- One pass of `Read`: timed-out check, then the state switch (half/fully
closed states return `EOF` once the buffer is empty; `Reset` returns
`ErrConnectionReset`), then delivery from the buffer. -/
def ReadStep (maxWin : Nat) (s : Stream) (bLen : Nat) : ReadResult :=
  if s.readTimedOut then .timeout
  else
    match s.state with
    | .LocalClose => if bufLen s = 0 then .eof else readDeliver maxWin s bLen
    | .RemoteClose => if bufLen s = 0 then .eof else readDeliver maxWin s bLen
    | .Closed => if bufLen s = 0 then .eof else readDeliver maxWin s bLen
    | .Reset => .reset
    | _ => readDeliver maxWin s bLen

/-- Result of `Close`: either a normal return carrying the emitted frames
and whether `closeStream` was requested, or the `panic("unhandled state")`
branch. -/
inductive CloseResult where
  | ok (s' : Stream) (frames : List Frame) (closeReq : Bool)
  | panicked (msg : String)
deriving DecidableEq, Repr

/-- `sendClose`: piggyback flags via `sendFlags`, OR in FIN, emit a
zero-length window-update frame. -/
def sendClose (s : Stream) : Stream × Frame :=
  let fs := sendFlags s
  (fs.2, ⟨.windowUpdate, fs.1 ||| flagFIN, fs.2.id, 0, []⟩)

/-- `Close`: the Go `switch` — open states move to `LocalClose` and send
FIN; `RemoteClose` moves to `Closed`, sends FIN and requests removal;
`LocalClose`, `Closed` and `Reset` are empty cases (no fallthrough in Go),
hence no-ops; `streamInit` is unhandled and panics. -/
def CloseOp (s : Stream) : CloseResult :=
  match s.state with
  | .SYNSent =>
      let r := sendClose { s with state := .LocalClose }
      .ok r.1 [r.2] false
  | .SYNReceived =>
      let r := sendClose { s with state := .LocalClose }
      .ok r.1 [r.2] false
  | .Established =>
      let r := sendClose { s with state := .LocalClose }
      .ok r.1 [r.2] false
  | .LocalClose => .ok s [] false
  | .RemoteClose =>
      let r := sendClose { s with state := .Closed }
      .ok r.1 [r.2] true
  | .Closed => .ok s [] false
  | .Reset => .ok s [] false
  | .Init => .panicked "unhandled state"

/-- `forceClose`: set the state to `Closed`, emit nothing. -/
def forceClose (s : Stream) : Stream := { s with state := .Closed }

/-!
Deadline subsystem (`SetReadDeadline` / `SetWriteDeadline`).  A
`time.Timer` created by `time.AfterFunc` is modelled by a numeric id;
`live` holds the timers that have been scheduled and neither fired nor
been stopped; `refTimer` is the stream's `readTimer` (resp. `writeTimer`)
field.  Firing a live timer is the `AfterFunc` callback running
`setReadTimedOut(true)`.
-/

/-- State of one deadline slot (read or write — the two are symmetric). -/
structure DeadlineState where
  timedOut : Bool
  refTimer : Option Nat
  live : List Nat
  nextId : Nat
deriving DecidableEq, Repr

/-- A fresh deadline slot: no timer, flag clear. -/
def dlInit : DeadlineState := ⟨false, none, [], 0⟩

/-- `SetReadDeadline(t)` (identically `SetWriteDeadline`): clear the
timed-out flag; with `t` zero or past, `Stop` the timer held in the field
and nil it; otherwise overwrite the field with a freshly scheduled
one-shot (the Go code does not `Stop` the previous timer in this branch);
finally, a nonzero past instant sets the timed-out flag at once. -/
def setDeadline (st : DeadlineState) (tIsZero : Bool) (d : Int) : DeadlineState :=
  let st1 := { st with timedOut := false }
  let st2 :=
    if tIsZero || decide (d < 0) then
      { st1 with
          live := match st1.refTimer with
                  | some i => st1.live.erase i
                  | none => st1.live,
          refTimer := none }
    else
      { st1 with
          refTimer := some st1.nextId,
          live := st1.live ++ [st1.nextId],
          nextId := st1.nextId + 1 }
  if (!tIsZero) && decide (d < 0) then { st2 with timedOut := true } else st2

/-- A scheduled one-shot fires: if it was neither stopped nor already
fired, it sets the timed-out flag. -/
def fireTimer (st : DeadlineState) (i : Nat) : DeadlineState :=
  if i ∈ st.live then { st with timedOut := true, live := st.live.erase i } else st

/-!
Receive-path trace: interleavings of accepted data frames and user reads
on one stream, recording the bytes ingested and the bytes delivered.
-/

/-- One event on the receive path: the session ingests a data frame with
the given flags and body (length = body length), or the user issues a
`Read` with a buffer of `bLen` bytes. -/
inductive TraceOp where
  | ingest (flags : Nat) (body : List Nat)
  | userRead (bLen : Nat)
deriving DecidableEq, Repr

/-- A stream together with the cumulative bytes the user has received and
the cumulative frame bodies the session has accepted. -/
structure RunAcc where
  s : Stream
  delivered : List Nat
  ingested : List Nat
deriving DecidableEq, Repr

/-- Apply one receive-path event.  A rejected frame (`readData` returning
an error) ingests nothing; a `Read` that returns no data delivers
nothing. -/
def runStep (maxWin : Nat) (a : RunAcc) : TraceOp → RunAcc
  | .ingest flags body =>
      let r := readData a.s flags body.length body
      match r.err with
      | none => ⟨r.stream, a.delivered, a.ingested ++ body⟩
      | some _ => ⟨r.stream, a.delivered, a.ingested⟩
  | .userRead bLen =>
      match ReadStep maxWin a.s bLen with
      | .bytes data s' _ => ⟨s', a.delivered ++ data, a.ingested⟩
      | _ => a

/-- Run a sequence of receive-path events. -/
def runOps (maxWin : Nat) (a : RunAcc) : List TraceOp → RunAcc
  | [] => a
  | op :: rest => runOps maxWin (runStep maxWin a op) rest

/-!
Close/FIN trace: every operation of `stream.go` that can change the
stream state or emit a FIN, so that "at most one FIN per stream" can be
stated over whole histories.  `sendFlagsEv` stands for the state effect
of any outbound data or window-update frame (`write` /
`sendWindowUpdate`), whose flags come from `sendFlags` and therefore
never include FIN.
-/

/-- State-changing events in the life of a stream. -/
inductive SEv where
  | closeEv
  | flagsEv (f : Nat)
  | forceEv
  | sendFlagsEv
deriving DecidableEq, Repr

/-- A stream together with the number of FIN-carrying frames emitted so
far; `halted` records that `Close` hit the `panic` branch. -/
structure CloseMachine where
  s : Stream
  fins : Nat
  halted : Bool
deriving DecidableEq, Repr

/-- Number of frames in a list whose flags carry FIN. -/
def finsOf (frames : List Frame) : Nat :=
  frames.countP (fun f => f.flags &&& flagFIN = flagFIN)

/-- Apply one state-changing event to the machine. -/
def closeTraceStep (m : CloseMachine) (e : SEv) : CloseMachine :=
  if m.halted then m
  else
    match e with
    | .closeEv =>
        match CloseOp m.s with
        | .ok s' frames _ => ⟨s', m.fins + finsOf frames, false⟩
        | .panicked _ => ⟨m.s, m.fins, true⟩
    | .flagsEv f => ⟨(processFlags m.s f).stream, m.fins, false⟩
    | .forceEv => ⟨forceClose m.s, m.fins, false⟩
    | .sendFlagsEv => ⟨(sendFlags m.s).2, m.fins, false⟩

/-- Run a sequence of state-changing events. -/
def runEvs : List SEv → CloseMachine → CloseMachine
  | [], m => m
  | e :: rest, m => runEvs rest (closeTraceStep m e)

/-- The states a stream can be in once it has emitted a FIN. -/
def closedish (st : StreamState) : Prop :=
  st = .LocalClose ∨ st = .Closed ∨ st = .Reset

instance (st : StreamState) : Decidable (closedish st) := by
  unfold closedish; infer_instance

/-- Invariant for the FIN-count trace: at most one FIN so far, and once
one has been emitted the stream sits in a state from which no further
FIN-emitting transition is reachable. -/
def CloseInv (m : CloseMachine) : Prop :=
  m.fins ≤ 1 ∧ (m.fins = 1 → closedish m.s.state)

/-- The data handed to the user by one `Read` pass, when any. -/
def deliveredOf : ReadResult → Option (List Nat)
  | .bytes data _ _ => some data
  | _ => none

/-! ## Theorems -/

/-- `sendFlags` only touches the state: the id and both windows and the
buffer are preserved. -/
theorem sendFlags_fields (s : Stream) :
    (sendFlags s).2.id = s.id ∧ (sendFlags s).2.recvWindow = s.recvWindow ∧
    (sendFlags s).2.sendWindow = s.sendWindow ∧ (sendFlags s).2.recvBuf = s.recvBuf := by
  obtain ⟨i, st, rw, sw, rb, rt, wt⟩ := s
  cases st <;> exact ⟨rfl, rfl, rfl, rfl⟩

/-- `uint32` subtraction agrees with `Nat` subtraction when it cannot
underflow. -/
theorem sub32_exact (a b : Nat) (hb : b ≤ a) (ha : a < U32) : sub32 a b = a - b := by
  simp only [sub32, U32] at *
  omega

/-- Adding the `uint32` two's complement `^(m-1)` subtracts `m` exactly
when `m ≤ w` (no wraparound), including the degenerate `m = 0`. -/
theorem decr32 (w m : Nat) (hm : m ≤ w) (hw : w < U32) :
    (w + compl32 (sub32 m 1)) % U32 = w - m := by
  simp only [compl32, sub32, U32] at *
  omega

/-- `processFlags` with no flag bits set changes nothing and requests no
session effect. -/
theorem processFlags_zero (s : Stream) :
    processFlags s 0 = ⟨none, s, ⟨false, false⟩⟩ := by
  simp [processFlags, applyRST, flagACK, flagFIN, flagRST]

/-- Claim C1 (amended): an inbound frame whose flags carry ACK (and
neither FIN nor RST) moves a `SYNSent` stream to `Established` and
notifies the session; on a stream still in `Init` the session is
notified but the state is left unchanged (only `SYNSent` transitions). -/
theorem ack_transitions (s : Stream) (f : Nat)
    (hACK : f &&& flagACK = flagACK) (hFIN : f &&& flagFIN ≠ flagFIN)
    (hRST : f &&& flagRST ≠ flagRST) :
    (s.state = .SYNSent →
      (processFlags s f).stream = { s with state := .Established } ∧
      (processFlags s f).eff.establish = true ∧
      (processFlags s f).err = none) ∧
    (s.state = .Init →
      (processFlags s f).stream = s ∧
      (processFlags s f).eff.establish = true ∧
      (processFlags s f).err = none) := by
  constructor <;> intro hs <;>
    simp [processFlags, applyRST, hACK, hFIN, hRST, hs]

/-- Witness for `ack_transitions` at concrete streams and `flags = ACK`. -/
theorem ack_transitions_witness :
    ((processFlags (newStream 1 .SYNSent 10) flagACK).stream =
        { newStream 1 .SYNSent 10 with state := .Established } ∧
      (processFlags (newStream 1 .SYNSent 10) flagACK).eff.establish = true ∧
      (processFlags (newStream 1 .SYNSent 10) flagACK).err = none) ∧
    ((processFlags (newStream 2 .Init 10) flagACK).stream = newStream 2 .Init 10 ∧
      (processFlags (newStream 2 .Init 10) flagACK).eff.establish = true ∧
      (processFlags (newStream 2 .Init 10) flagACK).err = none) :=
  ⟨(ack_transitions (newStream 1 .SYNSent 10) flagACK (by decide) (by decide)
      (by decide)).1 rfl,
    (ack_transitions (newStream 2 .Init 10) flagACK (by decide) (by decide)
      (by decide)).2 rfl⟩

/-- Claim C1, counterexample to the claim as stated: a stream in `Init`
receiving ACK does **not** transition to `Established` — `processFlags`
only promotes `SYNSent`; the state stays `Init` (the session is still
notified). -/
theorem ack_in_init_cex :
    (processFlags (newStream 7 .Init 10) flagACK).stream.state = .Init ∧
    (processFlags (newStream 7 .Init 10) flagACK).stream.state ≠ .Established ∧
    (processFlags (newStream 7 .Init 10) flagACK).eff.establish = true := by
  decide

/-- Claim C3 (code bug): `SetReadDeadline` with a future instant
overwrites the timer field without stopping the previously scheduled
timer.  Starting from a fresh deadline slot, two successive
future-deadline calls leave both one-shots live (`live = [0, 1]`), and
firing the *first* (superseded) timer still sets the timed-out flag —
contradicting "any previously scheduled timer is cancelled … only the
later deadline can set the flag". -/
theorem deadline_leaves_prior_timer :
    (setDeadline (setDeadline dlInit false 5) false 100).timedOut = false ∧
    (setDeadline (setDeadline dlInit false 5) false 100).live = [0, 1] ∧
    (fireTimer (setDeadline (setDeadline dlInit false 5) false 100) 0).timedOut = true := by
  decide

/-- Claim C7 (amended): a data frame with **no flags** whose length
exceeds the current receive window is rejected with
`RecvWindowExceeded`, and the stream is left entirely unchanged — no
bytes are buffered, the window is not decremented, the state is
untouched.  (With flags present, flag processing runs first and may
change the state; see the counterexample.) -/
theorem recv_window_exceeded_rejects (s : Stream) (length : Nat) (body : List Nat)
    (h : s.recvWindow < length) :
    readData s 0 length body = ⟨some .RecvWindowExceeded, s, ⟨false, false⟩⟩ := by
  have hl : ¬ length = 0 := by omega
  simp [readData, processFlags_zero, hl, h]

/-- Witness for `recv_window_exceeded_rejects`: window 10, length 11. -/
theorem recv_window_exceeded_rejects_witness :
    readData ⟨1, .Established, 10, 10, none, false, false⟩ 0 11 [5] =
      ⟨some .RecvWindowExceeded, ⟨1, .Established, 10, 10, none, false, false⟩,
        ⟨false, false⟩⟩ :=
  recv_window_exceeded_rejects _ _ _ (by decide)

/-- Claim C7, counterexample to the claim as stated: an oversized data
frame carrying FIN is rejected with `RecvWindowExceeded`, but the stream
state is **not** unchanged — `processFlags` ran first and moved
`Established` to `RemoteClose`. -/
theorem recv_window_exceeded_flags_cex :
    (readData ⟨1, .Established, 10, 10, none, false, false⟩ flagFIN 11 []).err =
      some .RecvWindowExceeded ∧
    (readData ⟨1, .Established, 10, 10, none, false, false⟩ flagFIN 11 []).stream.state =
      .RemoteClose ∧
    (readData ⟨1, .Established, 10, 10, none, false, false⟩ flagFIN 11 []).stream.state ≠
      (⟨1, .Established, 10, 10, none, false, false⟩ : Stream).state := by
  decide

/-- Claim C9 (confirmed): `Close` on a stream in state `Init` falls into
the `default:` branch of the switch and panics with "unhandled state":
a locally created stream that has never sent a frame cannot be closed
without panicking. -/
theorem close_init_panics (s : Stream) (h : s.state = .Init) :
    CloseOp s = .panicked "unhandled state" := by
  unfold CloseOp
  rw [h]

/-- Witness for `close_init_panics` at a freshly created local stream. -/
theorem close_init_panics_witness :
    CloseOp (newStream 1 .Init 262144) = .panicked "unhandled state" :=
  close_init_panics _ rfl

/-- Claim C10 (confirmed): `Write` with an empty buffer returns `(0, nil)`
for **every** stream state — including `LocalClose`, `Closed` and
`Reset` — emitting no frame and reporting no state-based error: the loop
condition `total < len(b)` fails before the state check ever runs. -/
theorem write_empty_noop (fuel : Nat) (s : Stream) :
    WriteOp fuel s [] = some (0, none, s, []) := by
  unfold WriteOp writeLoop
  simp

/-- Claim C2 (amended): in `Closed`, a non-empty `Write` fails with
`StreamClosed` and zero bytes written; in `Reset`, `Write` fails with
`ConnectionReset` and `Read` returns `ConnectionReset`; `Read` in
`Closed` returns `EOF` once the buffer is empty; but buffered received
bytes are still returned by `Read` in `Closed` exactly as in
`LocalClose`/`RemoteClose` (all assuming the deadline flag is clear,
which otherwise takes precedence with `Timeout`). -/
theorem closed_reset_io (s : Stream) (b : List Nat) (fuel maxWin bLen : Nat) :
    (s.writeTimedOut = false → s.state = .Closed → b ≠ [] →
      WriteOp (fuel + 1) s b = some (0, some .StreamClosed, s, [])) ∧
    (s.writeTimedOut = false → s.state = .Reset → b ≠ [] →
      WriteOp (fuel + 1) s b = some (0, some .ConnectionReset, s, [])) ∧
    (s.readTimedOut = false → s.state = .Closed → bufLen s = 0 →
      ReadStep maxWin s bLen = .eof) ∧
    (s.readTimedOut = false → s.state = .Reset →
      ReadStep maxWin s bLen = .reset) ∧
    (s.readTimedOut = false → s.state = .Closed → bufLen s ≠ 0 →
      deliveredOf (ReadStep maxWin s bLen) =
        some ((bufContents s).take (min bLen (bufLen s)))) := by
  refine ⟨?_, ?_, ?_, ?_, ?_⟩
  · intro hw hs hb
    have h0 : 0 < b.length := List.length_pos.mpr hb
    unfold WriteOp writeLoop
    simp [h0, writeStep, hw, hs]
  · intro hw hs hb
    have h0 : 0 < b.length := List.length_pos.mpr hb
    unfold WriteOp writeLoop
    simp [h0, writeStep, hw, hs]
  · intro hr hs hbuf
    simp [ReadStep, hr, hs, hbuf]
  · intro hr hs
    simp [ReadStep, hr, hs]
  · intro hr hs hbuf
    simp [ReadStep, readDeliver, deliveredOf, hr, hs, hbuf]

/-- Witness for `closed_reset_io` at concrete closed/reset streams. -/
theorem closed_reset_io_witness :
    WriteOp 1 ⟨1, .Closed, 8, 10, none, false, false⟩ [3] =
      some (0, some .StreamClosed, ⟨1, .Closed, 8, 10, none, false, false⟩, []) ∧
    WriteOp 1 ⟨1, .Reset, 8, 10, none, false, false⟩ [3] =
      some (0, some .ConnectionReset, ⟨1, .Reset, 8, 10, none, false, false⟩, []) ∧
    ReadStep 16 ⟨1, .Closed, 8, 10, none, false, false⟩ 4 = .eof ∧
    ReadStep 16 ⟨1, .Reset, 8, 10, some [7], false, false⟩ 4 = .reset ∧
    deliveredOf (ReadStep 16 ⟨2, .Closed, 8, 10, some [7], false, false⟩ 4) = some [7] :=
  ⟨(closed_reset_io ⟨1, .Closed, 8, 10, none, false, false⟩ [3] 0 16 4).1 rfl rfl
      (by decide),
    (closed_reset_io ⟨1, .Reset, 8, 10, none, false, false⟩ [3] 0 16 4).2.1 rfl rfl
      (by decide),
    (closed_reset_io ⟨1, .Closed, 8, 10, none, false, false⟩ [] 0 16 4).2.2.1 rfl rfl
      (by decide),
    (closed_reset_io ⟨1, .Reset, 8, 10, some [7], false, false⟩ [] 0 16 4).2.2.2.1 rfl
      rfl,
    (closed_reset_io ⟨2, .Closed, 8, 10, some [7], false, false⟩ [] 0 16 4).2.2.2.2 rfl
      rfl (by decide)⟩

/-- Claim C2, counterexample to the claim as stated: a stream in state
`Closed` with a byte still buffered **does** hand that byte to `Read` —
"never in Closed" fails on the code (the `Closed` case only returns
`EOF` when the buffer is empty, otherwise it falls through to
delivery). -/
theorem read_drains_in_closed_cex :
    (⟨1, .Closed, 8, 10, some [7], false, false⟩ : Stream).state = .Closed ∧
    ReadStep 16 ⟨1, .Closed, 8, 10, some [7], false, false⟩ 4 =
      .bytes [7] ⟨1, .Closed, 16, 10, some [], false, false⟩
        [⟨.windowUpdate, 0, 1, 8, []⟩] := by
  decide

/-- Claim C5 (confirmed): with the window invariant
`recvWindow + buffered ≤ MaxStreamWindowSize` in force, `sendWindowUpdate`
computes `delta = MaxStreamWindowSize − buffered − recvWindow`, emits a
window-update frame carrying `delta` precisely when
`delta ≥ MaxStreamWindowSize/2` or a SYN/ACK flag is pending, increasing
`recvWindow` by `delta` exactly then; otherwise it emits nothing and
leaves `recvWindow` unchanged. -/
theorem window_update_policy (s : Stream) (maxWin : Nat)
    (hmax : maxWin < U32) (hinv : s.recvWindow + bufLen s ≤ maxWin) :
    (maxWin / 2 ≤ maxWin - bufLen s - s.recvWindow ∨ (sendFlags s).1 ≠ 0 →
      (sendWindowUpdate maxWin s).2 =
        some ⟨.windowUpdate, (sendFlags s).1, s.id,
          maxWin - bufLen s - s.recvWindow, []⟩ ∧
      (sendWindowUpdate maxWin s).1.recvWindow =
        s.recvWindow + (maxWin - bufLen s - s.recvWindow)) ∧
    (maxWin - bufLen s - s.recvWindow < maxWin / 2 ∧ (sendFlags s).1 = 0 →
      (sendWindowUpdate maxWin s).2 = none ∧
      (sendWindowUpdate maxWin s).1.recvWindow = s.recvWindow) := by
  obtain ⟨hid, hrw, hsw, hrb⟩ := sendFlags_fields s
  have hb : bufLen s ≤ maxWin := by omega
  have h1 : sub32 maxWin (bufLen s) = maxWin - bufLen s := sub32_exact _ _ hb hmax
  have h2 : sub32 (maxWin - bufLen s) s.recvWindow =
      maxWin - bufLen s - s.recvWindow := sub32_exact _ _ (by omega) (by omega)
  have hlt : s.recvWindow + (maxWin - bufLen s - s.recvWindow) < U32 := by omega
  constructor
  · intro hcond
    have hnc : ¬ (maxWin - bufLen s - s.recvWindow < maxWin / 2 ∧
        (sendFlags s).1 = 0) := by
      rcases hcond with h | h
      · exact fun hc => absurd hc.1 (by omega)
      · exact fun hc => h hc.2
    simp only [sendWindowUpdate, h1, h2, if_neg hnc]
    refine ⟨?_, ?_⟩
    · simp [hid, hrw]
    · simp [hrw, Nat.mod_eq_of_lt hlt]
  · intro hcond
    simp only [sendWindowUpdate, h1, h2, if_pos hcond]
    simp [hrw]

/-- Witness for `window_update_policy`: an emitting call
(`delta = 6 ≥ 8/2`) and a suppressed call (`delta = 2 < 8/2`). -/
theorem window_update_policy_witness :
    ((sendWindowUpdate 8 ⟨1, .Established, 2, 10, none, false, false⟩).2 =
        some ⟨.windowUpdate, 0, 1, 6, []⟩ ∧
      (sendWindowUpdate 8 ⟨1, .Established, 2, 10, none, false, false⟩).1.recvWindow = 8) ∧
    ((sendWindowUpdate 8 ⟨1, .Established, 6, 10, none, false, false⟩).2 = none ∧
      (sendWindowUpdate 8 ⟨1, .Established, 6, 10, none, false, false⟩).1.recvWindow = 6) :=
  ⟨(window_update_policy ⟨1, .Established, 2, 10, none, false, false⟩ 8 (by decide)
        (by decide)).1 (Or.inl (by decide)),
    (window_update_policy ⟨1, .Established, 6, 10, none, false, false⟩ 8 (by decide)
        (by decide)).2 (by decide)⟩

/-- Claim C6 (confirmed): a `write` step in a writable state with nonzero
send window `w` emits exactly one data frame covering
`min(w, len(b))` bytes of the front of the buffer, returns that count,
and the `uint32` two's-complement addition `sendWindow += ^(max-1)`
decrements the window by exactly the emitted length without wrapping
(the emitted length never exceeds `w`). -/
theorem write_step_window (s : Stream) (b : List Nat)
    (ht : s.writeTimedOut = false)
    (h1 : s.state ≠ .LocalClose) (h2 : s.state ≠ .Closed) (h3 : s.state ≠ .Reset)
    (hw0 : s.sendWindow ≠ 0) (hw : s.sendWindow < U32) :
    writeStep s b =
      .sent (min s.sendWindow b.length)
        ⟨.data, (sendFlags s).1, s.id, min s.sendWindow b.length,
          b.take (min s.sendWindow b.length)⟩
        { (sendFlags s).2 with
            sendWindow := s.sendWindow - min s.sendWindow b.length } ∧
    min s.sendWindow b.length ≤ s.sendWindow := by
  have hmn : min s.sendWindow b.length ≤ s.sendWindow := Nat.min_le_left _ _
  have harith := decr32 s.sendWindow (min s.sendWindow b.length) hmn hw
  refine ⟨?_, hmn⟩
  obtain ⟨i, st, rw, sw, rb, rt, wt⟩ := s
  simp only [Stream.writeTimedOut] at ht
  simp only [Stream.sendWindow] at hw0 harith
  cases st <;>
    first
      | exact absurd rfl h1
      | exact absurd rfl h2
      | exact absurd rfl h3
      | simp [writeStep, sendFlags, ht, hw0, harith]

/-- `sendWindowUpdate` never touches the receive buffer. -/
theorem sendWindowUpdate_recvBuf (maxWin : Nat) (s : Stream) :
    (sendWindowUpdate maxWin s).1.recvBuf = s.recvBuf := by
  unfold sendWindowUpdate
  dsimp only
  split <;> simp [(sendFlags_fields s).2.2.2]

/-- A delivering `readDeliver` hands over a prefix of the buffer and
leaves exactly the rest buffered. -/
theorem readDeliver_bytes (maxWin : Nat) (s : Stream) (bLen : Nat) (data : List Nat)
    (s' : Stream) (frames : List Frame)
    (h : readDeliver maxWin s bLen = .bytes data s' frames) :
    data ++ bufContents s' = bufContents s := by
  unfold readDeliver at h
  split at h
  · cases h
  · rw [ReadResult.bytes.injEq] at h
    obtain ⟨hd, hs', _⟩ := h
    subst hd
    have hb : bufContents s' = (bufContents s).drop (min bLen (bufLen s)) := by
      rw [← hs', bufContents, sendWindowUpdate_recvBuf]
      simp [bufContents]
    rw [hb, List.take_append_drop]

/-- A `Read` pass that returns data hands over a prefix of the buffer and
leaves exactly the rest buffered. -/
theorem readStep_bytes (maxWin : Nat) (s : Stream) (bLen : Nat) (data : List Nat)
    (s' : Stream) (frames : List Frame)
    (h : ReadStep maxWin s bLen = .bytes data s' frames) :
    data ++ bufContents s' = bufContents s := by
  unfold ReadStep at h
  split at h
  · cases h
  · split at h <;>
      first
        | cases h
        | exact readDeliver_bytes _ _ _ _ _ _ h
        | (split at h
           · cases h
           · exact readDeliver_bytes _ _ _ _ _ _ h)

/-- Flag processing never touches the receive buffer. -/
theorem processFlags_recvBuf (s : Stream) (f : Nat) :
    (processFlags s f).stream.recvBuf = s.recvBuf := by
  obtain ⟨i, st, rw, sw, rb, rt, wt⟩ := s
  by_cases hA : f &&& flagACK = flagACK <;>
    by_cases hF : f &&& flagFIN = flagFIN <;>
    by_cases hR : f &&& flagRST = flagRST <;>
    cases st <;>
    simp [processFlags, applyRST, hA, hF, hR]

/-- An accepted data frame (whatever its flags) appends exactly its body
to the receive buffer. -/
theorem readData_buf_ok (s : Stream) (f : Nat) (body : List Nat)
    (h : (readData s f body.length body).err = none) :
    bufContents (readData s f body.length body).stream = bufContents s ++ body := by
  have hpf := processFlags_recvBuf s f
  rcases he : (processFlags s f).err with _ | e
  · simp only [readData, he] at h ⊢
    by_cases h0 : body.length = 0
    · have hb : body = [] := List.length_eq_zero.mp h0
      subst hb
      simp [bufContents, hpf]
    · by_cases hw : (processFlags s f).stream.recvWindow < body.length
      · simp [h0, hw] at h
      · simp [h0, hw, bufContents, hpf, List.take_length]
  · simp only [readData, he] at h
    cases h

/-- A rejected data frame (whatever its flags) leaves the receive buffer
unchanged. -/
theorem readData_buf_err (s : Stream) (f length : Nat) (body : List Nat) (e : GoErr)
    (h : (readData s f length body).err = some e) :
    bufContents (readData s f length body).stream = bufContents s := by
  have hpf := processFlags_recvBuf s f
  rcases he : (processFlags s f).err with _ | e'
  · simp only [readData, he] at h ⊢
    by_cases h0 : length = 0
    · simp [h0] at h
    · by_cases hw : (processFlags s f).stream.recvWindow < length
      · simp [h0, hw, bufContents, hpf]
      · simp [h0, hw] at h
  · simp only [readData, he] at h ⊢
    simp [bufContents, hpf]

/-- One receive-path event preserves the accounting invariant
`delivered ++ buffered = ingested`. -/
theorem runStep_invariant (maxWin : Nat) (a : RunAcc)
    (h : a.delivered ++ bufContents a.s = a.ingested) (op : TraceOp) :
    (runStep maxWin a op).delivered ++ bufContents (runStep maxWin a op).s =
      (runStep maxWin a op).ingested := by
  cases op with
  | ingest f body =>
      simp only [runStep]
      rcases he : (readData a.s f body.length body).err with _ | e
      · simp only [he]
        rw [readData_buf_ok a.s f body he, ← List.append_assoc, h]
      · simp only [he]
        rw [readData_buf_err a.s f body.length body e he]
        exact h
  | userRead bLen =>
      simp only [runStep]
      split
      case _ data s' frames heq =>
        have hb := readStep_bytes maxWin a.s bLen data s' frames heq
        simp only [RunAcc.delivered, RunAcc.ingested, RunAcc.s]
        rw [List.append_assoc, hb, h]
      case _ => exact h

/-- Claim C4 (confirmed): over every interleaving of accepted data frames
and user reads, the bytes delivered to the user followed by the bytes
still buffered equal the concatenation of the accepted frame bodies in
arrival order — so cumulative delivery matches cumulative ingestion and
order is preserved; once the buffer is drained the delivered sequence
equals the ingested sequence exactly. -/
theorem read_delivers_ingested (maxWin : Nat) (ops : List TraceOp) (s0 : Stream)
    (h0 : bufContents s0 = []) :
    (runOps maxWin ⟨s0, [], []⟩ ops).delivered ++
        bufContents (runOps maxWin ⟨s0, [], []⟩ ops).s =
      (runOps maxWin ⟨s0, [], []⟩ ops).ingested ∧
    (bufContents (runOps maxWin ⟨s0, [], []⟩ ops).s = [] →
      (runOps maxWin ⟨s0, [], []⟩ ops).delivered =
        (runOps maxWin ⟨s0, [], []⟩ ops).ingested) := by
  have main : ∀ (ops : List TraceOp) (a : RunAcc),
      a.delivered ++ bufContents a.s = a.ingested →
      (runOps maxWin a ops).delivered ++ bufContents (runOps maxWin a ops).s =
        (runOps maxWin a ops).ingested := by
    intro ops
    induction ops with
    | nil => exact fun a h => h
    | cons op rest ih => exact fun a h => ih _ (runStep_invariant maxWin a h op)
  have h1 := main ops ⟨s0, [], []⟩ (by simp [h0])
  refine ⟨h1, fun hdrain => ?_⟩
  rw [hdrain, List.append_nil] at h1
  exact h1

/-- Witness for `read_delivers_ingested`: ingest 3 bytes, read 2, read
the rest, then ingest 2 more bytes on a FIN-flagged frame that stay
buffered. -/
theorem read_delivers_ingested_witness :
    (runOps 16 ⟨⟨1, .Established, 12, 12, none, false, false⟩, [], []⟩
        [.ingest 0 [1, 2, 3], .userRead 2, .userRead 9, .ingest 4 [4, 5]]).delivered ++
      bufContents (runOps 16 ⟨⟨1, .Established, 12, 12, none, false, false⟩, [], []⟩
        [.ingest 0 [1, 2, 3], .userRead 2, .userRead 9, .ingest 4 [4, 5]]).s =
    (runOps 16 ⟨⟨1, .Established, 12, 12, none, false, false⟩, [], []⟩
        [.ingest 0 [1, 2, 3], .userRead 2, .userRead 9, .ingest 4 [4, 5]]).ingested :=
  (read_delivers_ingested 16 [.ingest 0 [1, 2, 3], .userRead 2, .userRead 9,
    .ingest 4 [4, 5]] ⟨1, .Established, 12, 12, none, false, false⟩ rfl).1

/-- `processFlags` cannot leave the half/fully-closed region
`{LocalClose, Closed, Reset}`. -/
theorem processFlags_closedish (s : Stream) (f : Nat) (h : closedish s.state) :
    closedish (processFlags s f).stream.state := by
  obtain ⟨i, st, rw, sw, rb, rt, wt⟩ := s
  simp only [Stream.state] at h
  rcases h with h | h | h <;> subst h <;>
    by_cases hA : f &&& flagACK = flagACK <;>
    by_cases hF : f &&& flagFIN = flagFIN <;>
    by_cases hR : f &&& flagRST = flagRST <;>
    simp [processFlags, applyRST, hA, hF, hR, closedish]

/-- `sendFlags` cannot leave the half/fully-closed region either. -/
theorem sendFlags_closedish (s : Stream) (h : closedish s.state) :
    closedish (sendFlags s).2.state := by
  obtain ⟨i, st, rw, sw, rb, rt, wt⟩ := s
  simp only [Stream.state] at h
  rcases h with h | h | h <;> subst h <;> simp [sendFlags, closedish]

/-- One state-changing event preserves the FIN-count invariant. -/
theorem closeInv_step (m : CloseMachine) (e : SEv) (h : CloseInv m) :
    CloseInv (closeTraceStep m e) := by
  obtain ⟨h1, h2⟩ := h
  unfold closeTraceStep
  by_cases hh : m.halted
  · rw [if_pos hh]; exact ⟨h1, h2⟩
  · rw [if_neg hh]
    cases e with
    | closeEv =>
        obtain ⟨⟨i, st, rw, sw, rb, rt, wt⟩, fins, halted⟩ := m
        simp only [CloseMachine.fins, CloseMachine.s, Stream.state] at h1 h2 ⊢
        cases st <;>
          simp_all [CloseOp, sendClose, sendFlags, finsOf, flagFIN, flagSYN, flagACK,
            CloseInv, closedish] <;>
          omega
    | flagsEv f =>
        exact ⟨h1, fun he => processFlags_closedish _ _ (h2 he)⟩
    | forceEv =>
        exact ⟨h1, fun _ => Or.inr (Or.inl rfl)⟩
    | sendFlagsEv =>
        exact ⟨h1, fun he => sendFlags_closedish _ (h2 he)⟩

/-- Claim C8 (confirmed): `Close` on a stream in `LocalClose` is a
no-op — the Go `case streamLocalClose:` has an empty body and no
fallthrough, so the state stays `LocalClose`, no frame (hence no second
FIN) is emitted, and `nil` is returned; moreover over any history of
state-changing events (`Close`, inbound flags, `forceClose`, outbound
flag piggybacking) a stream starting with no FIN emitted emits at most
one FIN in total. -/
theorem close_localclose_noop_fin_once :
    (∀ s : Stream, s.state = .LocalClose → CloseOp s = .ok s [] false) ∧
    (∀ (evs : List SEv) (m : CloseMachine), m.fins = 0 →
      (runEvs evs m).fins ≤ 1) := by
  constructor
  · intro s hs
    unfold CloseOp
    rw [hs]
  · intro evs m hm
    have inv : ∀ (evs : List SEv) (m : CloseMachine),
        CloseInv m → CloseInv (runEvs evs m) := by
      intro evs
      induction evs with
      | nil => exact fun m h => h
      | cons e rest ih => exact fun m h => ih _ (closeInv_step m e h)
    exact (inv evs m ⟨by omega, fun he => absurd (hm.symm.trans he) (by decide)⟩).1

/-- Witness for `close_localclose_noop_fin_once`: a concrete `LocalClose`
stream, and a history closing an established stream twice around an
inbound FIN. -/
theorem close_localclose_noop_fin_once_witness :
    CloseOp ⟨1, .LocalClose, 8, 8, none, false, false⟩ =
      .ok ⟨1, .LocalClose, 8, 8, none, false, false⟩ [] false ∧
    (runEvs [.closeEv, .closeEv, .flagsEv 4, .closeEv]
        ⟨newStream 1 .Established 8, 0, false⟩).fins ≤ 1 :=
  ⟨close_localclose_noop_fin_once.1 _ rfl,
    close_localclose_noop_fin_once.2 _ _ rfl⟩

/-- Witness for `write_step_window`: window 100, three-byte buffer. -/
theorem write_step_window_witness :
    writeStep ⟨1, .Established, 10, 100, none, false, false⟩ [1, 2, 3] =
      .sent 3 ⟨.data, 0, 1, 3, [1, 2, 3]⟩ ⟨1, .Established, 10, 97, none, false, false⟩ ∧
    (3 : Nat) ≤ 100 :=
  write_step_window ⟨1, .Established, 10, 100, none, false, false⟩ [1, 2, 3] rfl
    (by decide) (by decide) (by decide) (by decide) (by decide)

end Yamux
